import Mathlib

/-!
Shallow embedding of the SENPAI collectible-game economy core
(`src/shivu/utils.py`, `src/shivu/modules/gift.py`, `give.py`, `redeem.py`,
`shop.py`, `setrarity.py`) and verification of the frozen claims about it.

Conventions of the embedding:
* MongoDB collections keyed by a unique `id` are modelled as association
  lists; `find_one {'id': k}` is `assocLookup`, `update_one` with `$set`,
  `$inc`, `$push`, `$pull` become the corresponding pure list updates.
  `$pull: {'characters': {'id': c}}` removes EVERY matching element, exactly
  as MongoDB does.
* `time.time()` / `datetime.now()` instants are integers passed explicitly.
* `random.randint` / `$sample` results are oracle parameters (a stream of
  integers, a list of sampled catalog rows).
* A Python statement that raises is modelled with `Option`/an error result;
  the enclosing `try/except` of the source decides how far mutations got.
-/

namespace Senpai

/-! ### Association-list primitives (the Mongo/dict access layer) -/

/-- Mongo `find_one {'id': k}` / Python `dict[k]`: first binding of `k`. -/
def assocLookup {α β : Type} [DecidableEq α] (k : α) : List (α × β) → Option β
  | [] => none
  | (k', v) :: rest => if k = k' then some v else assocLookup k rest

/-- In-place update of the first binding of `k` (no-op when absent). -/
def assocUpdate {α β : Type} [DecidableEq α] (k : α) (f : β → β) :
    List (α × β) → List (α × β)
  | [] => []
  | (k', v) :: rest =>
    if k = k' then (k', f v) :: rest else (k', v) :: assocUpdate k f rest

/-- Python `del d[k]` / Mongo `delete_one`: drop the first binding of `k`. -/
def assocErase {α β : Type} [DecidableEq α] (k : α) : List (α × β) → List (α × β)
  | [] => []
  | (k', v) :: rest => if k = k' then rest else (k', v) :: assocErase k rest

/-- Upsert semantics: overwrite the first binding or append a fresh one. -/
def assocSet {α β : Type} [DecidableEq α] (k : α) (v : β) :
    List (α × β) → List (α × β)
  | [] => [(k, v)]
  | (k', v') :: rest =>
    if k = k' then (k, v) :: rest else (k', v') :: assocSet k v rest

theorem assocLookup_eq_some_of_mem_update {α β : Type} [DecidableEq α]
    {k : α} {f : β → β} {p : α × β} :
    ∀ l : List (α × β), p ∈ assocUpdate k f l →
      p ∈ l ∨ ∃ v, assocLookup k l = some v ∧ p = (k, f v)
  | [], hp => by simp [assocUpdate] at hp
  | (k', v') :: tl, hp => by
    by_cases hk : k = k'
    · subst hk
      have heq : assocUpdate k f ((k, v') :: tl) = (k, f v') :: tl := by
        simp [assocUpdate]
      rw [heq] at hp
      rcases List.mem_cons.mp hp with h | h
      · exact Or.inr ⟨v', by simp [assocLookup], h⟩
      · exact Or.inl (List.mem_cons_of_mem _ h)
    · have heq : assocUpdate k f ((k', v') :: tl) = (k', v') :: assocUpdate k f tl := by
        simp [assocUpdate, hk]
      rw [heq] at hp
      rcases List.mem_cons.mp hp with h | h
      · exact Or.inl (h ▸ List.mem_cons_self _ _)
      · rcases assocLookup_eq_some_of_mem_update tl h with h' | ⟨v, hv, hp'⟩
        · exact Or.inl (List.mem_cons_of_mem _ h')
        · exact Or.inr ⟨v, by simp [assocLookup, hk, hv], hp'⟩

/-! ### `utils.py`: rarity configuration and `parse_rarity` -/

/-- The dict `RARITY_MAP` from `utils.py` (keys 1–15, small-caps display values). -/
def RARITY_MAP : List (Int × String) :=
  [(1, "⚪ ᴄᴏᴍᴍᴏɴ"), (2, "🔵 ʀᴀʀᴇ"), (3, "🟡 ʟᴇɢᴇɴᴅᴀʀʏ"), (4, "💮 ꜱᴘᴇᴄɪᴀʟ"),
   (5, "👹 ᴀɴᴄɪᴇɴᴛ"), (6, "🎐 ᴄᴇʟᴇꜱᴛɪᴀʟ"), (7, "🔮 ᴇᴘɪᴄ"), (8, "🪐 ᴄᴏꜱᴍɪᴄ"),
   (9, "⚰️ ɴɪɢʜᴛᴍᴀʀᴇ"), (10, "🌬️ ꜰʀᴏꜱᴛʙᴏʀɴ"), (11, "💝 ᴠᴀʟᴇɴᴛɪɴᴇ"),
   (12, "🌸 ꜱᴘʀɪɴɢ"), (13, "🏖️ ᴛʀᴏᴘɪᴄᴀʟ"), (14, "🍭 ᴋᴀᴡᴀɪɪ"), (15, "🧬 ʜʏʙʀɪᴅ")]

/-- The dict `RARITY_EMOJIS` from `utils.py`: an int-keyed dict, values are emoji. -/
def RARITY_EMOJIS : List (Int × String) :=
  [(1, "⚪"), (2, "🔵"), (3, "🟡"), (4, "💮"), (5, "👹"),
   (6, "🎐"), (7, "🔮"), (8, "🪐"), (9, "⚰️"), (10, "🌬️"),
   (11, "💝"), (12, "🌸"), (13, "🏖️"), (14, "🍭"), (15, "🧬")]

/-- The `name_to_int` dict local to `parse_rarity`. -/
def NAME_TO_INT : List (String × Int) :=
  [("common", 1), ("rare", 2), ("legendary", 3), ("special", 4), ("ancient", 5),
   ("celestial", 6), ("epic", 7), ("cosmic", 8), ("nightmare", 9),
   ("frostborn", 10), ("valentine", 11), ("spring", 12), ("tropical", 13),
   ("kawaii", 14), ("hybrid", 15)]

/-- The dynamically-typed value stored in a record's `rarity` field:
`None`, an `int`, or a `str`. -/
inductive RarityValue : Type
  | vnone : RarityValue
  | vint (n : Int) : RarityValue
  | vstr (s : String) : RarityValue
deriving DecidableEq, Repr, Inhabited

/-- Python `rarity_value in RARITY_MAP`: key membership in the rarity dict. -/
def rarityKey (n : Int) : Bool := RARITY_MAP.any (fun p => p.1 == n)

/-- ASCII whitespace, for modelling `str.strip()`. -/
def pyWhitespace (c : Char) : Bool :=
  c == ' ' || c == '\t' || c == '\n' || c == '\r'

/-- Python `str.strip()` (ASCII whitespace suffices for the stored values). -/
def pyStrip (s : String) : String :=
  String.mk (((s.data.dropWhile pyWhitespace).reverse.dropWhile pyWhitespace).reverse)

/-- Python `str.lower()` (ASCII case suffices for the stored values). -/
def pyLower (s : String) : String := String.mk (s.data.map Char.toLower)

/-- Python `str.isdigit()` (ASCII digits; nonempty). -/
def pyIsDigit (s : String) : Bool := s ≠ "" && s.data.all Char.isDigit

/-- Decimal digits to a number, most significant first. -/
def digitsToNat : List Char → Nat → Nat
  | [], acc => acc
  | c :: rest, acc => digitsToNat rest (acc * 10 + (c.toNat - 48))

/-- Python `int(s)` on a digit string. -/
def pyIntOfDigits (s : String) : Int := Int.ofNat (digitsToNat s.data 0)

/-- The loop `for emoji, num in RARITY_EMOJIS.items(): if emoji in rarity_str:
return num` from `parse_rarity`. `items()` on the int-keyed dict yields
`(key, value)` pairs, so `emoji` is bound to the `Int` key and the membership
test `emoji in rarity_str` applies Python `in` with an `int` left operand to a
`str`, which raises `TypeError` as soon as the loop body runs. Result:
`none` = the loop raised; `some none` = the loop fell through (empty dict);
`some (some _)` is unreachable because the test never evaluates to a bool. -/
def emojiLoop (pairs : List (Int × String)) (rarityStr : String) :
    Option (Option Int) :=
  match pairs, rarityStr with
  | [], _ => some none
  | _ :: _, _ => none

/-- Function `parse_rarity` from `utils.py`. `none` models an uncaught `TypeError`. -/
def parse_rarity (rarityValue : RarityValue) : Option Int :=
  match rarityValue with
  | .vnone => some 1
  | .vint n => some (if rarityKey n then n else 1)
  | .vstr s =>
    let rarityStr := pyLower (pyStrip s)
    if pyIsDigit rarityStr then
      let num := pyIntOfDigits rarityStr
      some (if rarityKey num then num else 1)
    else
      match emojiLoop RARITY_EMOJIS rarityStr with
      | none => none
      | some (some num) => some num
      | some none =>
        match assocLookup rarityStr NAME_TO_INT with
        | some num => some num
        | none => some 1

/-! ### Account Store data model (`user_collection` documents) -/

/-- A character record / owned character-instance snapshot: the fields
`id`, `name`, `anime`, `rarity`, `img_url` used by `give.py`, `gift.py`,
`shop.py`. The `rarity` field keeps its raw stored shape. -/
structure Character : Type where
  cid : Int
  name : String
  anime : String
  rarity : RarityValue
  img_url : String
deriving DecidableEq, Repr, Inhabited

/-- A `user_collection` document, reduced to the fields the economy core
reads: `balance` (read with `.get('balance', 0)`) and `characters`. -/
structure Account : Type where
  balance : Int
  characters : List Character
deriving DecidableEq, Repr, Inhabited

/-- The store `user_collection`, an id-keyed document store. -/
abbrev UserDB : Type := List (Int × Account)

/-- Python `user.get('balance', 0) if user else 0`. -/
def getBalance (db : UserDB) (uid : Int) : Int :=
  match assocLookup uid db with
  | some a => a.balance
  | none => 0

/-- How many instances of character id `cid` the account `uid` owns. -/
def countChar (db : UserDB) (uid cid : Int) : Nat :=
  match assocLookup uid db with
  | some a => a.characters.countP (fun c => c.cid == cid)
  | none => 0

/-- Total number of instances of character id `cid` across all accounts. -/
def totalChar (db : UserDB) (cid : Int) : Nat :=
  (db.map (fun p => p.2.characters.countP (fun c => c.cid == cid))).sum

/-- Mongo `update_one({'id': uid}, {'$push': {'characters': c}}, upsert=True)`:
append to the existing document's array, or create a fresh document.  A
document created by this upsert has no `balance` field, which all balance
reads default to `0`. -/
def dbPushChar (db : UserDB) (uid : Int) (c : Character) : UserDB :=
  match assocLookup uid db with
  | some _ =>
    assocUpdate uid (fun a => { a with characters := a.characters ++ [c] }) db
  | none => db ++ [(uid, { balance := 0, characters := [c] })]

/-- Mongo `update_one({'id': uid}, {'$pull': {'characters': {'id': cid}}})`:
MongoDB `$pull` removes EVERY array element matching the condition. -/
def dbPullChar (db : UserDB) (uid cid : Int) : UserDB :=
  assocUpdate uid (fun a => { a with characters := a.characters.filter (fun c => !(c.cid == cid)) }) db

/-- Mongo `update_one({'id': uid}, {'$inc': {'balance': d}})` without upsert:
no matching document means no effect. -/
def dbIncBalance (db : UserDB) (uid : Int) (d : Int) : UserDB :=
  assocUpdate uid (fun a => { a with balance := a.balance + d }) db

/-- Mongo `update_one({'id': uid}, {'$inc': {'balance': d}}, upsert=True)`. -/
def dbIncBalanceUpsert (db : UserDB) (uid : Int) (d : Int) : UserDB :=
  match assocLookup uid db with
  | some _ => dbIncBalance db uid d
  | none => db ++ [(uid, { balance := d, characters := [] })]

/-- The snapshot `char_to_add` built by `give.py` and `shop.py`: an explicit
copy of the catalog row's `id`, `name`, `anime`, `rarity`, `img_url`. -/
def snapshot (c : Character) : Character :=
  { cid := c.cid, name := c.name, anime := c.anime,
    rarity := c.rarity, img_url := c.img_url }

/-! ### `setrarity.py`: the global character-lock store -/

/-- Combined durable + process-local state touched by the transfer engine:
`user_collection`, the in-memory `gift_cooldowns` dict (user id ↦ the
instant the cooldown expires), the `locked_characters` collection and the
character catalog `collection`. -/
structure EconState : Type where
  users : UserDB
  cooldowns : List (Int × Int)
  locked : List Int
  catalog : List (Int × Character)
deriving DecidableEq, Repr

/-- Function `is_character_locked` from `setrarity.py`: membership of the character id
in the `locked_characters` collection (the source keys it by `str(id)`;
the id-to-string map is injective, so `Int` keys are kept). -/
def is_character_locked (st : EconState) (cid : Int) : Bool :=
  st.locked.contains cid

/-- Function `lock_character` from `setrarity.py`: upsert into `locked_characters`. -/
def lock_character (st : EconState) (cid : Int) : EconState :=
  { st with locked := if st.locked.contains cid then st.locked else st.locked ++ [cid] }

/-! ### `gift.py`: two-phase peer gift -/

/-- Constant `GIFT_COOLDOWN_SECONDS` from `gift.py`. -/
def GIFT_COOLDOWN_SECONDS : Int := 300

/-- Lines 26–33 of `gift.py`: look the sender up in `gift_cooldowns` and
compute the remaining time; `some r` (with `r > 0`) means the command is
rejected. -/
def cooldownRemaining (cooldowns : List (Int × Int)) (uid now : Int) : Option Int :=
  match assocLookup uid cooldowns with
  | some expiry => if expiry - now > 0 then some (expiry - now) else none
  | none => none

inductive GiftProposeResult : Type
  | cooldownActive (remaining : Int)
  | selfGift
  | noCharacters
  | charNotFound
  | proposed (sender_id recipient_id char_id : Int)
deriving DecidableEq, Repr

/-- Command `gift_cmd` from `gift.py` with the platform-side argument parsing already
done (`char_id`, `recipient_id` resolved).  Emits the stateless token embedded
in the `gift_confirm:{sender}:{recipient}:{char}` callback button; never
mutates any state. -/
def gift_propose (sender_id char_id recipient_id now : Int) (st : EconState) :
    GiftProposeResult × EconState :=
  match cooldownRemaining st.cooldowns sender_id now with
  | some r => (.cooldownActive r, st)
  | none =>
    if recipient_id = sender_id then (.selfGift, st)
    else
      match assocLookup sender_id st.users with
      | none => (.noCharacters, st)
      | some sender =>
        if sender.characters = [] then (.noCharacters, st)
        else
          match sender.characters.find? (fun c => c.cid == char_id) with
          | none => (.charNotFound, st)
          | some _ => (.proposed sender_id recipient_id char_id, st)

inductive GiftConfirmResult : Type
  | unauthorized
  | senderNotFound
  | charNotFound
  | storageError
  | success
deriving DecidableEq, Repr

/-- The `gift_confirm:` branch of `gift_callback` in `gift.py`.  `pullOk` and
`pushOk` are oracles for the two `update_one` calls raising inside the `try`
block: a raising call leaves the store untouched and control jumps to the
`except` handler, after any earlier call already took effect.  On the success
path the sender's cooldown is set to `now + GIFT_COOLDOWN_SECONDS`. -/
def gift_confirm (invoker_id sender_id recipient_id char_id now : Int)
    (pullOk pushOk : Bool) (st : EconState) : GiftConfirmResult × EconState :=
  if invoker_id ≠ sender_id then (.unauthorized, st)
  else
    match assocLookup sender_id st.users with
    | none => (.senderNotFound, st)
    | some sender =>
      match sender.characters.find? (fun c => c.cid == char_id) with
      | none => (.charNotFound, st)
      | some character =>
        if !pullOk then (.storageError, st)
        else
          let st1 := { st with users := dbPullChar st.users sender_id char_id }
          if !pushOk then (.storageError, st1)
          else
            let st2 := { st1 with users := dbPushChar st1.users recipient_id character }
            (.success, { st2 with cooldowns := assocSet sender_id (now + GIFT_COOLDOWN_SECONDS) st2.cooldowns })

inductive GiftCancelResult : Type
  | unauthorized
  | cancelled
deriving DecidableEq, Repr

/-- The `gift_cancel:` branch of `gift_callback`: only the encoded sender may
cancel; neither branch touches any store or the cooldown map. -/
def gift_cancel (invoker_id sender_id : Int) (st : EconState) :
    GiftCancelResult × EconState :=
  if invoker_id ≠ sender_id then (.unauthorized, st) else (.cancelled, st)

/-! ### `give.py`: direct admin grant -/

inductive GiveResult : Type
  | charNotFound
  | given
deriving DecidableEq, Repr

/-- Command `give_cmd` from `give.py` after authorization and argument parsing: fetch
the catalog row, fail if absent, otherwise push the snapshot to the
recipient.  The source consults no lock state. -/
def give (recipient_id char_id : Int) (st : EconState) : GiveResult × EconState :=
  match assocLookup char_id st.catalog with
  | none => (.charNotFound, st)
  | some character =>
    (.given, { st with users := dbPushChar st.users recipient_id (snapshot character) })

/-! ### `redeem.py`: redeem-code engine -/

/-- Constant `REDEEM_COOLDOWN_SECONDS` from `redeem.py`. -/
def REDEEM_COOLDOWN_SECONDS : Int := 60

/-- An entry of the in-memory `redeem_codes` dict (`createcode_cmd` stores
`reward_type`, `reward_amount`, `max_uses`, `expires`, `created_by`,
`created_at`, `redeemed_by`). -/
structure RedeemCode : Type where
  reward_type : String
  reward_amount : Int
  max_uses : Option Nat
  expires : Option Int
  created_by : Int
  created_at : Int
  redeemed_by : List Int
deriving DecidableEq, Repr

/-- State touched by `redeem_cmd`: the user store, the in-memory
`redeem_codes` dict and the in-memory `user_redeem_history` dict
(user id ↦ list of redemption instants). -/
structure RedeemState : Type where
  users : UserDB
  codes : List (String × RedeemCode)
  history : List (Int × List Int)
deriving DecidableEq, Repr

/-- Lines 38–46 of `redeem.py`: if the user appears in
`user_redeem_history` and the last entry is within
`REDEEM_COOLDOWN_SECONDS`, report the remaining wait. -/
def redeemCooldownRemaining (history : List (Int × List Int)) (uid now : Int) :
    Option Int :=
  match assocLookup uid history with
  | none => none
  | some l =>
    let lastRedeem := l.getLast?.getD 0
    if now - lastRedeem < REDEEM_COOLDOWN_SECONDS then
      some (REDEEM_COOLDOWN_SECONDS - (now - lastRedeem))
    else none

/-- Python `if code_data.get('expires'): if datetime.now() > code_data['expires']`.
A stored `datetime` is always truthy, so the check fires iff the field is
set and strictly in the past. -/
def codeExpired (cd : RedeemCode) (now : Int) : Bool :=
  match cd.expires with
  | some t => decide (now > t)
  | none => false

/-- Python `if code_data.get('max_uses'):` (Python truthiness: `None` and `0` skip)
`if len(code_data.get('redeemed_by', [])) >= code_data['max_uses']`. -/
def codeMaxUsesHit (cd : RedeemCode) : Bool :=
  match cd.max_uses with
  | some m => m ≠ 0 && cd.redeemed_by.length ≥ m
  | none => false

/-- The reward application of `redeem_cmd` (lines 87–92): an unconditional
`$inc` of the balance, upserting the user document. -/
def redeemReward (uid amount : Int) (st : RedeemState) : RedeemState :=
  { st with users := dbIncBalanceUpsert st.users uid amount }

/-- The usage recording of `redeem_cmd` (lines 104–112): a plain in-memory
append of the user id to `redeemed_by` and of the instant to
`user_redeem_history`; no condition is re-checked here. -/
def redeemRecord (uid : Int) (code : String) (now : Int) (st : RedeemState) :
    RedeemState :=
  { st with
    codes := assocUpdate code
      (fun cd => { cd with redeemed_by := cd.redeemed_by ++ [uid] }) st.codes,
    history :=
      match assocLookup uid st.history with
      | some l => assocUpdate uid (fun _ => l ++ [now]) st.history
      | none => st.history ++ [(uid, [now])] }

inductive RedeemResult : Type
  | cooldown (remaining : Int)
  | invalidCode
  | expired
  | alreadyRedeemed
  | maxUsesReached
  | characterNotImplemented
  | unknownRewardType
  | success (amount : Int)
deriving DecidableEq, Repr

/-- Command `redeem_cmd` from `redeem.py` (the `code` argument already upper-cased
and stripped, as done on line 55).  On expiry the code is `del`eted from
`redeem_codes` before the rejection is reported. -/
def redeem (uid : Int) (code : String) (now : Int) (st : RedeemState) :
    RedeemResult × RedeemState :=
  match redeemCooldownRemaining st.history uid now with
  | some r => (.cooldown r, st)
  | none =>
    match assocLookup code st.codes with
    | none => (.invalidCode, st)
    | some cd =>
      if codeExpired cd now then
        (.expired, { st with codes := assocErase code st.codes })
      else if cd.redeemed_by.contains uid then (.alreadyRedeemed, st)
      else if codeMaxUsesHit cd then (.maxUsesReached, st)
      else if cd.reward_type = "coins" then
        (.success cd.reward_amount,
          redeemRecord uid code now (redeemReward uid cd.reward_amount st))
      else if cd.reward_type = "character" then (.characterNotImplemented, st)
      else (.unknownRewardType, st)

/-- Command `deletecode_cmd` from `redeem.py` (after authorization): reject when the
code is absent, otherwise `del redeem_codes[code]`. -/
def delete_code (code : String) (st : RedeemState) : Bool × RedeemState :=
  match assocLookup code st.codes with
  | none => (false, st)
  | some _ => (true, { st with codes := assocErase code st.codes })

/-! ### `shop.py`: per-chat rotating shop -/

/-- Constant `SHOP_REFRESH_INTERVAL` (the listing TTL) from `shop.py`. -/
def SHOP_REFRESH_INTERVAL : Int := 3600

/-- Constant `MAX_SHOP_ITEMS` from `shop.py`. -/
def MAX_SHOP_ITEMS : Nat := 10

/-- One element of a generated listing: the dict
`{'character': char, 'price': price, 'rarity': rarity}`. -/
structure ShopItem : Type where
  character : Character
  price : Int
  rarity : Int
deriving DecidableEq, Repr, Inhabited

/-- One entry of the in-memory `shop_cache` dict:
`{'items': items, 'timestamp': now}`. -/
structure ShopCacheEntry : Type where
  items : List ShopItem
  timestamp : Int
deriving DecidableEq, Repr

/-- State touched by the shop engine: the user store and `shop_cache`. -/
structure ShopState : Type where
  users : UserDB
  cache : List (Int × ShopCacheEntry)
deriving DecidableEq, Repr

/-- The generation loop of `get_shop_items` (lines 44–67): walk the sampled
rows, skip ids already seen, price each kept row as
`max(100, rarity * 1000 + random.randint(-200, 200))`, and stop once
`MAX_SHOP_ITEMS` items are collected.  `rstream k` is the oracle for the
`randint` drawn for the `k`-th kept item.  `parse_rarity` raising
(`none`) aborts the whole generation — the `except` branch of the source
returns `[]` without caching. -/
def genItems : List Character → (Nat → Int) → List Int → Nat →
    Option (List ShopItem)
  | [], _, _, _ => some []
  | c :: rest, rstream, seen, k =>
    if seen.contains c.cid then genItems rest rstream seen k
    else
      match parse_rarity c.rarity with
      | none => none
      | some rarity =>
        let price := max 100 (rarity * 1000 + rstream k)
        let item : ShopItem := ⟨c, price, rarity⟩
        if k + 1 ≥ MAX_SHOP_ITEMS then some [item]
        else
          match genItems rest rstream (c.cid :: seen) (k + 1) with
          | none => none
          | some items => some (item :: items)

/-- Function `get_shop_items` from `shop.py`: return the cached listing while it is
younger than the TTL, otherwise regenerate from the `$sample` oracle and
replace the cache entry; a raising generation returns `[]` and caches
nothing. -/
def get_shop_items (sample : List Character) (rstream : Nat → Int)
    (now chat_id : Int) (cache : List (Int × ShopCacheEntry)) :
    List ShopItem × List (Int × ShopCacheEntry) :=
  match assocLookup chat_id cache with
  | some entry =>
    if now - entry.timestamp < SHOP_REFRESH_INTERVAL then (entry.items, cache)
    else
      match genItems sample rstream [] 0 with
      | some items => (items, assocSet chat_id ⟨items, now⟩ cache)
      | none => ([], cache)
  | none =>
    match genItems sample rstream [] 0 with
    | some items => (items, assocSet chat_id ⟨items, now⟩ cache)
    | none => ([], cache)

inductive BuyResult : Type
  | invalidNumber
  | invalidItem
  | insufficientFunds (needed : Int)
  | storageError
  | success
deriving DecidableEq, Repr

/-- Python `shop_cache[chat_id]['items'].pop(item_num - 1)` (line 200): `none`
models the lookup or the pop raising (chat entry missing or index out of
bounds), which the `except` handler turns into an error reply. -/
def popCacheItem (cache : List (Int × ShopCacheEntry)) (chat_id : Int)
    (idx : Nat) : Option (List (Int × ShopCacheEntry)) :=
  match assocLookup chat_id cache with
  | none => none
  | some entry =>
    if idx < entry.items.length then
      some (assocUpdate chat_id
        (fun e => { e with items := e.items.eraseIdx idx }) cache)
    else none

/-- The mutation phase of `buy_cmd` (lines 177–200): an unconditional
`$inc` of `-price`, a `$push` of the snapshot (upsert), then the in-memory
pop of the sold slot.  The balance condition is NOT re-checked here; a
failing pop leaves the two account writes in place. -/
def buyApply (chat_id uid : Int) (idx : Nat) (price : Int) (c : Character)
    (st : ShopState) : BuyResult × ShopState :=
  let users1 := dbIncBalance st.users uid (-price)
  let users2 := dbPushChar users1 uid (snapshot c)
  match popCacheItem st.cache chat_id idx with
  | some cache1 => (.success, { users := users2, cache := cache1 })
  | none => (.storageError, { users := users2, cache := st.cache })

/-- Command `buy_cmd` from `shop.py`: reject a non-positive item number, fetch the
(possibly regenerated) listing, bounds-check the index, read the balance
with `find_one`, reject on insufficient funds with no account mutation,
otherwise run the mutation phase. -/
def buy (sample : List Character) (rstream : Nat → Int)
    (chat_id uid : Int) (item_num : Int) (now : Int) (st : ShopState) :
    BuyResult × ShopState :=
  if item_num < 1 then (.invalidNumber, st)
  else
    let fetched := get_shop_items sample rstream now chat_id st.cache
    let items := fetched.1
    let st1 : ShopState := { st with cache := fetched.2 }
    if items.length = 0 ∨ item_num > items.length then (.invalidItem, st1)
    else
      let idx := (item_num - 1).toNat
      let item := items.getD idx default
      let balance := getBalance st1.users uid
      if balance < item.price then
        (.insufficientFunds (item.price - balance), st1)
      else buyApply chat_id uid idx item.price item.character st1

/-! ### Store-layer lemmas -/

theorem mem_of_assocLookup_eq_some {α β : Type} [DecidableEq α]
    {k : α} {v : β} : ∀ {l : List (α × β)}, assocLookup k l = some v → (k, v) ∈ l
  | [], h => by simp [assocLookup] at h
  | (k', v') :: tl, h => by
    by_cases hk : k = k'
    · subst hk
      simp [assocLookup] at h
      exact h ▸ List.mem_cons_self _ _
    · simp [assocLookup, hk] at h
      exact List.mem_cons_of_mem _ (mem_of_assocLookup_eq_some h)

theorem assocLookup_update_self {α β : Type} [DecidableEq α]
    (k : α) (f : β → β) : ∀ l : List (α × β),
      assocLookup k (assocUpdate k f l) = (assocLookup k l).map f
  | [] => by simp [assocLookup, assocUpdate]
  | (k', v') :: tl => by
    by_cases hk : k = k'
    · subst hk; simp [assocLookup, assocUpdate]
    · simp [assocLookup, assocUpdate, hk, assocLookup_update_self k f tl]

theorem assocLookup_append_none {α β : Type} [DecidableEq α]
    {k : α} {l1 : List (α × β)} (l2 : List (α × β))
    (h : assocLookup k l1 = none) :
    assocLookup k (l1 ++ l2) = assocLookup k l2 := by
  induction l1 with
  | nil => simp
  | cons hd tl ih =>
    obtain ⟨k', v'⟩ := hd
    by_cases hk : k = k'
    · simp [assocLookup, hk] at h
    · simp [assocLookup, hk] at h ⊢
      exact ih h

/-- Invariant: `balance ≥ 0` for every stored account document. -/
def nonnegBalances (db : UserDB) : Prop := ∀ p ∈ db, 0 ≤ p.2.balance

theorem getBalance_dbPushChar_self (db : UserDB) (uid : Int) (c : Character) :
    getBalance (dbPushChar db uid c) uid = getBalance db uid := by
  unfold dbPushChar
  rcases hlk : assocLookup uid db with _ | a
  · unfold getBalance
    rw [assocLookup_append_none _ hlk, hlk]
    simp [assocLookup]
  · unfold getBalance
    rw [assocLookup_update_self, hlk]
    simp

theorem getBalance_dbIncBalance_self (db : UserDB) (uid : Int) (d : Int)
    (h : (assocLookup uid db).isSome) :
    getBalance (dbIncBalance db uid d) uid = getBalance db uid + d := by
  unfold dbIncBalance getBalance
  rw [assocLookup_update_self]
  rcases hlk : assocLookup uid db with _ | a
  · rw [hlk] at h; simp at h
  · simp

theorem nonnegBalances_dbIncBalance (db : UserDB) (uid : Int) (d : Int)
    (h : nonnegBalances db) (hd : 0 ≤ getBalance db uid + d) :
    nonnegBalances (dbIncBalance db uid d) := by
  intro p hp
  rcases assocLookup_eq_some_of_mem_update _ hp with h1 | ⟨v, hv, hp'⟩
  · exact h p h1
  · subst hp'
    simpa [getBalance, hv] using hd

theorem nonnegBalances_dbPushChar (db : UserDB) (uid : Int) (c : Character)
    (h : nonnegBalances db) : nonnegBalances (dbPushChar db uid c) := by
  intro p hp
  unfold dbPushChar at hp
  rcases hlk : assocLookup uid db with _ | a
  · rw [hlk] at hp
    rcases List.mem_append.mp hp with h1 | h1
    · exact h p h1
    · simp at h1
      rw [h1]
  · rw [hlk] at hp
    rcases assocLookup_eq_some_of_mem_update _ hp with h1 | ⟨v, hv, hp'⟩
    · exact h p h1
    · rw [hp']
      exact h (uid, v) (mem_of_assocLookup_eq_some hv)

/-! ### Claim C9: totality of `parse_rarity` -/

/-- C9: the claim states that `parse_rarity` is total on `None`/`int`/`str`
inputs and returns an integer in 1–15, with 1 for unrecognized inputs.  The
code refutes it: the loop `for emoji, num in RARITY_EMOJIS.items()` unpacks
the int-keyed dict as `(key, value)`, so `emoji` is an `int` and the test
`emoji in rarity_str` raises `TypeError` for every string that survives the
`isdigit` branch — including the very emoji and rarity-name strings lines
94–106 try to recognize.  This theorem evaluates the embedding at such
failing inputs (`none` = `TypeError`), alongside the shapes that do work. -/
theorem parse_rarity_raises_on_nondigit_strings :
    parse_rarity (.vstr "legendary") = none ∧
    parse_rarity (.vstr "⚪ common") = none ∧
    parse_rarity (.vstr "") = none ∧
    parse_rarity .vnone = some 1 ∧
    parse_rarity (.vint 7) = some 7 ∧
    parse_rarity (.vint 99) = some 1 ∧
    parse_rarity (.vstr "12") = some 12 ∧
    parse_rarity (.vstr "99") = some 1 := by decide

/-! ### Claim C1: gift moves exactly one instance -/

/-- C1: the claim states that a confirmed gift moves exactly one instance —
sender count −1, recipient count +1, total unchanged — including when the
sender owns duplicates of that character id.  The code contradicts it:
`gift_callback` removes with `$pull: {'characters': {'id': char_id}}`, and
MongoDB `$pull` removes every matching element, while only the single found
snapshot is pushed to the recipient.  At a sender owning two instances of
character 42, confirm reports success, the sender's count drops 2 → 0 and
the global total drops 2 → 1: one instance is destroyed. -/
theorem gift_confirm_destroys_duplicate_instances :
    (let c42a : Character := ⟨42, "Rem", "ReZero", .vint 3, "u1"⟩
     let c42b : Character := ⟨42, "Rem", "ReZero", .vint 3, "u2"⟩
     let st : EconState := ⟨[(1, ⟨0, [c42a, c42b]⟩), (2, ⟨0, []⟩)], [], [], []⟩
     let r := gift_confirm 1 1 2 42 1000 true true st
     countChar st.users 1 42 = 2 ∧
     totalChar st.users 42 = 2 ∧
     r.1 = .success ∧
     countChar r.2.users 1 42 = 0 ∧
     countChar r.2.users 2 42 = 1 ∧
     totalChar r.2.users 42 = 1) := by decide

/-! ### Claim C10: when the gift cooldown is armed -/

/-- C10: the sender's gift cooldown is armed exactly by a successful confirm
(set to expire `GIFT_COOLDOWN_SECONDS` after the moment of success); every
rejected or erroring confirm leaves the cooldown map unchanged, and
cancellation leaves the whole state unchanged. -/
theorem gift_cooldown_armed_only_by_confirm_success
    (invoker sender recipient cid now : Int) (pullOk pushOk : Bool)
    (st : EconState) :
    (((gift_confirm invoker sender recipient cid now pullOk pushOk st).1 = .success →
        (gift_confirm invoker sender recipient cid now pullOk pushOk st).2.cooldowns
          = assocSet sender (now + GIFT_COOLDOWN_SECONDS) st.cooldowns) ∧
     ((gift_confirm invoker sender recipient cid now pullOk pushOk st).1 ≠ .success →
        (gift_confirm invoker sender recipient cid now pullOk pushOk st).2.cooldowns
          = st.cooldowns)) ∧
    (gift_cancel invoker sender st).2 = st := by
  constructor
  · by_cases hauth : invoker ≠ sender
    · simp [gift_confirm, hauth]
    · rcases h1 : assocLookup sender st.users with _ | acc
      · simp [gift_confirm, hauth, h1]
      · rcases h2 : acc.characters.find? (fun c => c.cid == cid) with _ | ch
        · simp [gift_confirm, hauth, h1, h2]
        · cases pullOk
          · simp [gift_confirm, hauth, h1, h2]
          · cases pushOk
            · simp [gift_confirm, hauth, h1, h2]
            · simp [gift_confirm, hauth, h1, h2]
  · unfold gift_cancel
    split <;> rfl

/-- Witness for C10: a concrete successful confirm arms the cooldown to
`1000 + 300`, and a concrete unauthorized confirm leaves it empty. -/
theorem gift_cooldown_armed_only_by_confirm_success_witness :
    (gift_confirm 1 1 2 42 1000 true true
        ⟨[(1, ⟨0, [⟨42, "n", "a", .vint 3, "u"⟩]⟩)], [], [], []⟩).2.cooldowns
      = assocSet 1 (1000 + GIFT_COOLDOWN_SECONDS) [] ∧
    (gift_confirm 5 1 2 42 1000 true true ⟨[], [], [], []⟩).2.cooldowns = [] :=
  ⟨(gift_cooldown_armed_only_by_confirm_success 1 1 2 42 1000 true true _).1.1
      (by decide),
   (gift_cooldown_armed_only_by_confirm_success 5 1 2 42 1000 true true _).1.2
      (by decide)⟩

/-! ### Claim C2: lock state at the moment of grant -/

/-- C2 counterexample: character 42 is unlocked when the gift is proposed; an
admin locks it (`lock_character`) before confirm; the claim demands confirm
fail with `Locked` and no instance move, and that a direct admin give of a
locked character fail likewise.  In the code neither `give_cmd` nor
`gift_callback` consults the lock store: confirm succeeds and the instance
moves, and the direct give grants the locked character. -/
theorem lock_race_not_prevented_cex :
    (let c42 : Character := ⟨42, "n", "a", .vint 3, "u"⟩
     let st0 : EconState := ⟨[(1, ⟨0, [c42]⟩)], [], [], [(42, c42)]⟩
     (gift_propose 1 42 2 100 st0).1 = .proposed 1 2 42 ∧
     (let st1 := lock_character st0 42
      is_character_locked st1 42 = true ∧
      (gift_confirm 1 1 2 42 100 true true st1).1 = .success ∧
      countChar (gift_confirm 1 1 2 42 100 true true st1).2.users 2 42 = 1 ∧
      countChar (gift_confirm 1 1 2 42 100 true true st1).2.users 1 42 = 0 ∧
      (give 3 42 st1).1 = .given ∧
      countChar (give 3 42 st1).2.users 3 42 = 1)) := by decide

/-- C2 amended: the granting channels (direct admin give and gift confirm)
never consult the global lock: their result and their effect on accounts and
cooldowns are identical for every contents of the `locked_characters` store,
so a character locked between proposal and confirm is still granted/moved. -/
theorem grant_channels_ignore_lock
    (invoker sender recipient cid now : Int) (pullOk pushOk : Bool)
    (st : EconState) (L : List Int) :
    ((give recipient cid { st with locked := L }).1 = (give recipient cid st).1 ∧
     (give recipient cid { st with locked := L }).2.users
       = (give recipient cid st).2.users) ∧
    ((gift_confirm invoker sender recipient cid now pullOk pushOk
        { st with locked := L }).1
       = (gift_confirm invoker sender recipient cid now pullOk pushOk st).1 ∧
     (gift_confirm invoker sender recipient cid now pullOk pushOk
        { st with locked := L }).2.users
       = (gift_confirm invoker sender recipient cid now pullOk pushOk st).2.users ∧
     (gift_confirm invoker sender recipient cid now pullOk pushOk
        { st with locked := L }).2.cooldowns
       = (gift_confirm invoker sender recipient cid now pullOk pushOk st).2.cooldowns) := by
  constructor
  · unfold give
    rcases h : assocLookup cid st.catalog with _ | ch <;> simp [h]
  · by_cases hauth : invoker ≠ sender
    · simp [gift_confirm, hauth]
    · rcases h1 : assocLookup sender st.users with _ | acc
      · simp [gift_confirm, hauth, h1]
      · rcases h2 : acc.characters.find? (fun c => c.cid == cid) with _ | ch
        · simp [gift_confirm, hauth, h1, h2]
        · cases pullOk
          · simp [gift_confirm, hauth, h1, h2]
          · cases pushOk <;> simp [gift_confirm, hauth, h1, h2]

/-! ### Claim C6: cooldown at confirm time -/

/-- C6 counterexample: the sender's cooldown is active at the moment confirm
is invoked (a propose at the same instant is rejected with the cooldown
message), yet `gift_callback` performs no cooldown check: the confirm
succeeds and the instance moves, where the claim demands `CooldownActive`
and no movement. -/
theorem gift_confirm_ignores_active_cooldown_cex :
    (let c42 : Character := ⟨42, "n", "a", .vint 3, "u"⟩
     let st : EconState := ⟨[(1, ⟨0, [c42]⟩)], [(1, 400)], [], []⟩
     cooldownRemaining st.cooldowns 1 100 = some 300 ∧
     (gift_propose 1 42 2 100 st).1 = .cooldownActive 300 ∧
     (gift_confirm 1 1 2 42 100 true true st).1 = .success ∧
     countChar (gift_confirm 1 1 2 42 100 true true st).2.users 2 42 = 1 ∧
     countChar (gift_confirm 1 1 2 42 100 true true st).2.users 1 42 = 0) := by decide

/-- C6 amended: the gift cooldown is checked only when the proposal command
runs (an active cooldown there is rejected with the remaining time and no
state change), while confirm ignores the cooldown map entirely: its result
and its effect on accounts are identical for every contents of
`gift_cooldowns`. -/
theorem gift_cooldown_checked_only_at_propose
    (invoker sender recipient cid now : Int) (pullOk pushOk : Bool)
    (st : EconState) (c : List (Int × Int)) :
    ((gift_confirm invoker sender recipient cid now pullOk pushOk
        { st with cooldowns := c }).1
       = (gift_confirm invoker sender recipient cid now pullOk pushOk st).1 ∧
     (gift_confirm invoker sender recipient cid now pullOk pushOk
        { st with cooldowns := c }).2.users
       = (gift_confirm invoker sender recipient cid now pullOk pushOk st).2.users) ∧
    (∀ r, cooldownRemaining st.cooldowns sender now = some r →
       gift_propose sender cid recipient now st = (.cooldownActive r, st)) := by
  constructor
  · by_cases hauth : invoker ≠ sender
    · simp [gift_confirm, hauth]
    · rcases h1 : assocLookup sender st.users with _ | acc
      · simp [gift_confirm, hauth, h1]
      · rcases h2 : acc.characters.find? (fun c => c.cid == cid) with _ | ch
        · simp [gift_confirm, hauth, h1, h2]
        · cases pullOk
          · simp [gift_confirm, hauth, h1, h2]
          · cases pushOk <;> simp [gift_confirm, hauth, h1, h2]
  · intro r hr
    unfold gift_propose
    rw [hr]

/-- Witness for C6: a concrete proposal at an instant with 300 seconds of
cooldown left is rejected with exactly that remaining time. -/
theorem gift_cooldown_checked_only_at_propose_witness :
    gift_propose 1 42 2 100 ⟨[], [(1, 400)], [], []⟩
      = (.cooldownActive 300, ⟨[], [(1, 400)], [], []⟩) :=
  (gift_cooldown_checked_only_at_propose 1 1 2 42 100 true true
      ⟨[], [(1, 400)], [], []⟩ []).2 300 (by decide)

/-! ### Claim C5: expired codes -/

/-- C5 counterexample: a never-used code whose `expires` instant is in the
past is rejected — but the claim also demands the code remain stored and
inert after the rejected attempt.  The code instead executes
`del redeem_codes[code]` inside the expiry branch: after the rejection the
code is gone from storage. -/
theorem expired_code_deleted_cex :
    (let cd : RedeemCode := ⟨"coins", 1000, none, some 10, 9, 0, []⟩
     let st : RedeemState := ⟨[(1, ⟨0, []⟩)], [("OLD1", cd)], []⟩
     (redeem 1 "OLD1" 11 st).1 = .expired ∧
     assocLookup "OLD1" (redeem 1 "OLD1" 11 st).2.codes = none) := by decide

/-- C5 amended: a redeem attempt against a code whose `expires_at` is set and
past fails with `Expired` even if the code was never used, with no balance or
history mutation — and the engine auto-deletes the code inside that very
validation: the rejected attempt erases the code from storage (administrative
`delete_code` is not the only deletion path). -/
theorem redeem_expired_rejects_and_deletes
    (uid : Int) (code : String) (now : Int) (st : RedeemState) (cd : RedeemCode)
    (hcd : redeemCooldownRemaining st.history uid now = none)
    (hlk : assocLookup code st.codes = some cd)
    (hexp : codeExpired cd now = true) :
    redeem uid code now st
      = (.expired, { st with codes := assocErase code st.codes }) ∧
    (redeem uid code now st).2.users = st.users ∧
    (redeem uid code now st).2.history = st.history := by
  have h : redeem uid code now st
      = (.expired, { st with codes := assocErase code st.codes }) := by
    simp [redeem, hcd, hlk, hexp]
  exact ⟨h, by rw [h], by rw [h]⟩

/-- Witness for C5: the `OLD1` code with `expires = 10`, redeemed at instant
11 by a user with empty history. -/
theorem redeem_expired_rejects_and_deletes_witness :
    redeem 1 "OLD1" 11 ⟨[(1, ⟨0, []⟩)], [("OLD1", ⟨"coins", 1000, none, some 10, 9, 0, []⟩)], []⟩
        = (.expired, { users := [(1, ⟨0, []⟩)],
                       codes := assocErase "OLD1" [("OLD1", ⟨"coins", 1000, none, some 10, 9, 0, []⟩)],
                       history := [] }) ∧
    (redeem 1 "OLD1" 11 ⟨[(1, ⟨0, []⟩)], [("OLD1", ⟨"coins", 1000, none, some 10, 9, 0, []⟩)], []⟩).2.users
        = [(1, ⟨0, []⟩)] ∧
    (redeem 1 "OLD1" 11 ⟨[(1, ⟨0, []⟩)], [("OLD1", ⟨"coins", 1000, none, some 10, 9, 0, []⟩)], []⟩).2.history
        = [] :=
  redeem_expired_rejects_and_deletes 1 "OLD1" 11
    ⟨[(1, ⟨0, []⟩)], [("OLD1", ⟨"coins", 1000, none, some 10, 9, 0, []⟩)], []⟩
    ⟨"coins", 1000, none, some 10, 9, 0, []⟩ (by decide) (by decide) (by decide)

/-! ### Claim C7: max-uses exhaustion -/

/-- C7: once the number of distinct users in `redeemed_by` has reached
`max_uses`, a redeem attempt by a user not in `redeemed_by` (and not gated by
the per-user redeem throttle) fails with `MaxUsesReached` and mutates
nothing: the returned state is exactly the input state.  The `Nodup`
hypothesis says the recorded users are distinct, which sequential execution
maintains, so the list length is the number of distinct users. -/
theorem redeem_max_uses_rejected
    (uid : Int) (code : String) (now : Int) (st : RedeemState)
    (cd : RedeemCode) (m : Nat)
    (hcd : redeemCooldownRemaining st.history uid now = none)
    (hlk : assocLookup code st.codes = some cd)
    (hexp : codeExpired cd now = false)
    (_hnd : cd.redeemed_by.Nodup)
    (hmem : cd.redeemed_by.contains uid = false)
    (hmu : cd.max_uses = some m) (hm : 0 < m)
    (hlen : m ≤ cd.redeemed_by.length) :
    redeem uid code now st = (.maxUsesReached, st) := by
  have hhit : codeMaxUsesHit cd = true := by
    unfold codeMaxUsesHit
    rw [hmu]
    simp only [Bool.and_eq_true, decide_eq_true_eq, ne_eq]
    exact ⟨by omega, by omega⟩
  have hmem' : uid ∉ cd.redeemed_by := by simpa using hmem
  simp [redeem, hcd, hlk, hexp, hmem', hhit]

/-- Witness for C7: `WELC0ME1` with `max_uses = 2` already redeemed by users
2 and 3; user 1's attempt is rejected with `MaxUsesReached` and the state is
returned unchanged. -/
theorem redeem_max_uses_rejected_witness :
    redeem 1 "WELC0ME1" 100
        ⟨[(1, ⟨0, []⟩)], [("WELC0ME1", ⟨"coins", 1000, some 2, none, 9, 0, [2, 3]⟩)], []⟩
      = (.maxUsesReached,
         ⟨[(1, ⟨0, []⟩)], [("WELC0ME1", ⟨"coins", 1000, some 2, none, 9, 0, [2, 3]⟩)], []⟩) :=
  redeem_max_uses_rejected 1 "WELC0ME1" 100
    ⟨[(1, ⟨0, []⟩)], [("WELC0ME1", ⟨"coins", 1000, some 2, none, 9, 0, [2, 3]⟩)], []⟩
    ⟨"coins", 1000, some 2, none, 9, 0, [2, 3]⟩ 2 (by decide) (by decide)
    (by decide) (by decide) (by decide) (by decide) (by decide) (by decide)

/-! ### Claim C4: one successful redemption per user per code -/

/-- C4 counterexample: the claim demands that recording a redemption re-check
the already-redeemed/max-uses conditions and insert the user in one atomic
conditional operation.  In the code the checks (lines 72–80) and the plain
`redeemed_by.append` (line 107) are separated by the awaited balance write, a
suspension point at which another task can run.  Two redemptions by user 1
that both validate against the same state therefore both succeed: the
recording step, applied when user 1 is already in `redeemed_by`, inserts
again without re-checking, leaving `redeemed_by = [1, 1]` and the balance
credited twice. -/
theorem redeem_record_not_atomic_cex :
    (let cd : RedeemCode := ⟨"coins", 1000, some 2, none, 9, 0, []⟩
     let st0 : RedeemState := ⟨[(1, ⟨0, []⟩)], [("WELC0ME1", cd)], []⟩
     -- the full validation pipeline passes at st0
     (redeem 1 "WELC0ME1" 100 st0).1 = .success 1000 ∧
     (let stA := redeemRecord 1 "WELC0ME1" 100 (redeemReward 1 1000 st0)
      let stB := redeemRecord 1 "WELC0ME1" 100 (redeemReward 1 1000 stA)
      assocLookup "WELC0ME1" stA.codes
        = some ⟨"coins", 1000, some 2, none, 9, 0, [1]⟩ ∧
      assocLookup "WELC0ME1" stB.codes
        = some ⟨"coins", 1000, some 2, none, 9, 0, [1, 1]⟩ ∧
      getBalance stB.users 1 = 2000)) := by decide

/-- C4 amended: in non-interleaved execution the uniqueness holds — once the
user is in the code's `redeemed_by`, a further attempt (not gated by the
per-user throttle) fails with `AlreadyRedeemed` and the state is returned
exactly unchanged; but the recording step is a plain append performed after
the balance write with no re-check, not an atomic conditional insert, so it
resolves no race. -/
theorem redeem_already_redeemed_sequential
    (uid : Int) (code : String) (now : Int) (st : RedeemState) (cd : RedeemCode)
    (hcd : redeemCooldownRemaining st.history uid now = none)
    (hlk : assocLookup code st.codes = some cd)
    (hexp : codeExpired cd now = false)
    (hmem : cd.redeemed_by.contains uid = true) :
    redeem uid code now st = (.alreadyRedeemed, st) := by
  have hmem' : uid ∈ cd.redeemed_by := by simpa using hmem
  simp [redeem, hcd, hlk, hexp, hmem']

/-- Witness for C4: user 1 already in `redeemed_by` of `WELC0ME1`; the next
attempt is rejected with `AlreadyRedeemed` and the state is unchanged. -/
theorem redeem_already_redeemed_sequential_witness :
    redeem 1 "WELC0ME1" 100
        ⟨[(1, ⟨1000, []⟩)], [("WELC0ME1", ⟨"coins", 1000, some 2, none, 9, 0, [1]⟩)], [(1, [30])]⟩
      = (.alreadyRedeemed,
         ⟨[(1, ⟨1000, []⟩)], [("WELC0ME1", ⟨"coins", 1000, some 2, none, 9, 0, [1]⟩)], [(1, [30])]⟩) :=
  redeem_already_redeemed_sequential 1 "WELC0ME1" 100
    ⟨[(1, ⟨1000, []⟩)], [("WELC0ME1", ⟨"coins", 1000, some 2, none, 9, 0, [1]⟩)], [(1, [30])]⟩
    ⟨"coins", 1000, some 2, none, 9, 0, [1]⟩ (by decide) (by decide)
    (by decide) (by decide)

/-! ### Claim C3: purchase balance discipline -/

/-- One sequential invocation of `buy_cmd` with its oracles. -/
structure BuyInvocation : Type where
  sample : List Character
  rstream : Nat → Int
  chat_id : Int
  uid : Int
  item_num : Int
  now : Int

/-- A sequence of non-interleaved purchases. -/
def runBuys (ops : List BuyInvocation) (st : ShopState) : ShopState :=
  ops.foldl
    (fun s op => (buy op.sample op.rstream op.chat_id op.uid op.item_num op.now s).2)
    st

theorem buy_preserves_nonnegBalances (sample : List Character)
    (rstream : Nat → Int) (chat_id uid item_num now : Int) (st : ShopState)
    (h : nonnegBalances st.users) :
    nonnegBalances (buy sample rstream chat_id uid item_num now st).2.users := by
  simp only [buy]
  split
  · exact h
  · split
    · exact h
    · split
      · exact h
      · rename_i hbal
        simp only [buyApply]
        split <;>
        · apply nonnegBalances_dbPushChar
          apply nonnegBalances_dbIncBalance _ _ _ h
          omega

theorem runBuys_preserves_nonnegBalances :
    ∀ (ops : List BuyInvocation) (st : ShopState),
      nonnegBalances st.users → nonnegBalances (runBuys ops st).users
  | [], _, h => h
  | op :: rest, st, h =>
    runBuys_preserves_nonnegBalances rest _
      (buy_preserves_nonnegBalances op.sample op.rstream op.chat_id op.uid
        op.item_num op.now st h)

/-- C3 counterexample: the claim demands that the buyer's balance be
decremented "as a single conditional operation conditioned on sufficient
funds" and that balances stay ≥ 0 after any sequence of operations.  In the
code the balance read (`find_one`) and the decrement (`$inc`) are separate
awaited store calls with no condition on the write: the mutation phase,
applied at a state whose balance no longer covers the price, still
decrements.  Two purchases that both read balance 500 ≥ 400 before either
write — an interleaving the suspension points admit — drive the balance to
−300. -/
theorem buy_decrement_not_conditional_cex :
    (let chr : Character := ⟨5, "C", "Y", .vint 2, "u"⟩
     let entry : ShopCacheEntry := ⟨[⟨chr, 400, 2⟩], 0⟩
     getBalance (buyApply 5 7 0 400 chr ⟨[(7, ⟨100, []⟩)], [(5, entry)]⟩).2.users 7
       = -300 ∧
     (let st0 : ShopState := ⟨[(7, ⟨500, []⟩)], [(5, entry)]⟩
      ¬ getBalance st0.users 7 < 400 ∧
      getBalance (buyApply 5 7 0 400 chr (buyApply 5 7 0 400 chr st0).2).2.users 7
        = -300)) := by decide

/-- C3 amended: sequentially the purchase is sound — an insufficient balance
is rejected with `InsufficientFunds` and no account mutation, a successful
purchase decrements the balance by exactly the listed price, and any sequence
of non-interleaved purchases keeps every stored balance ≥ 0 — but the check
and the decrement are two separate store operations (a read followed by an
unconditional `$inc`), not one conditional operation, so the non-negativity
is not protected against interleaved purchases. -/
theorem buy_sequential_spec
    (sample : List Character) (rstream : Nat → Int)
    (chat_id uid item_num now : Int) (st : ShopState)
    (items : List ShopItem) (cache1 : List (Int × ShopCacheEntry))
    (hfetch : get_shop_items sample rstream now chat_id st.cache = (items, cache1))
    (hnum : 1 ≤ item_num) (hlen : item_num ≤ items.length) :
    (getBalance st.users uid < (items.getD (item_num - 1).toNat default).price →
       buy sample rstream chat_id uid item_num now st
         = (.insufficientFunds
              ((items.getD (item_num - 1).toNat default).price - getBalance st.users uid),
            { st with cache := cache1 })) ∧
    ((assocLookup uid st.users).isSome = true →
     ¬ getBalance st.users uid < (items.getD (item_num - 1).toNat default).price →
       getBalance (buy sample rstream chat_id uid item_num now st).2.users uid
         = getBalance st.users uid - (items.getD (item_num - 1).toNat default).price) ∧
    (∀ (ops : List BuyInvocation) (st2 : ShopState),
       nonnegBalances st2.users → nonnegBalances (runBuys ops st2).users) := by
  have hlen0 : (items.length : Int) ≥ item_num := by exact_mod_cast hlen
  refine ⟨?_, ?_, fun ops st2 h2 => runBuys_preserves_nonnegBalances ops st2 h2⟩
  · intro hb
    simp only [buy, hfetch]
    rw [if_neg (by omega), if_neg (by omega), if_pos hb]
  · intro hsome hb
    simp only [buy, hfetch]
    rw [if_neg (by omega), if_neg (by omega), if_neg hb]
    simp only [buyApply]
    split <;>
    · simp only
      rw [getBalance_dbPushChar_self, getBalance_dbIncBalance_self _ _ _ hsome]
      omega

/-- A one-slot listing used to instantiate the C3 theorem. -/
def demoItem : ShopItem := ⟨⟨5, "C", "Y", .vint 2, "u"⟩, 400, 2⟩

/-- The demo shop cache holding only `demoItem`, generated at instant 90. -/
def demoCache : List (Int × ShopCacheEntry) := [(5, ⟨[demoItem], 90⟩)]

/-- Witness for C3: buyer 7 with balance 100 against the fresh 400-coin
listing slot is rejected with `InsufficientFunds` and no account mutation;
with balance 500 the purchase leaves exactly 100; and every sequence of
purchases preserves non-negative balances. -/
theorem buy_sequential_spec_witness :
    (getBalance ([(7, ⟨100, []⟩)] : UserDB) 7 <
       (([demoItem] : List ShopItem).getD ((1 : Int) - 1).toNat default).price →
       buy [] (fun _ => 0) 5 7 1 100 ⟨[(7, ⟨100, []⟩)], demoCache⟩
         = (.insufficientFunds
              ((([demoItem] : List ShopItem).getD ((1 : Int) - 1).toNat default).price -
                 getBalance ([(7, ⟨100, []⟩)] : UserDB) 7),
            { users := [(7, ⟨100, []⟩)], cache := demoCache })) ∧
    ((assocLookup 7 ([(7, ⟨500, []⟩)] : UserDB)).isSome = true →
     ¬ getBalance ([(7, ⟨500, []⟩)] : UserDB) 7 <
         (([demoItem] : List ShopItem).getD ((1 : Int) - 1).toNat default).price →
       getBalance (buy [] (fun _ => 0) 5 7 1 100
           ⟨[(7, ⟨500, []⟩)], demoCache⟩).2.users 7
         = getBalance ([(7, ⟨500, []⟩)] : UserDB) 7 -
             (([demoItem] : List ShopItem).getD ((1 : Int) - 1).toNat default).price) ∧
    (∀ (ops : List BuyInvocation) (st2 : ShopState),
       nonnegBalances st2.users → nonnegBalances (runBuys ops st2).users) :=
  ⟨(buy_sequential_spec [] (fun _ => 0) 5 7 1 100 ⟨[(7, ⟨100, []⟩)], demoCache⟩
      [demoItem] demoCache (by decide) (by decide) (by decide)).1,
   (buy_sequential_spec [] (fun _ => 0) 5 7 1 100 ⟨[(7, ⟨500, []⟩)], demoCache⟩
      [demoItem] demoCache (by decide) (by decide) (by decide)).2.1,
   (buy_sequential_spec [] (fun _ => 0) 5 7 1 100 ⟨[(7, ⟨500, []⟩)], demoCache⟩
      [demoItem] demoCache (by decide) (by decide) (by decide)).2.2⟩

/-! ### Claim C8: listing cache and regeneration -/

/-- The character ids of a listing. -/
def itemIds (items : List ShopItem) : List Int :=
  items.map (fun it => it.character.cid)

theorem genItems_ids (rstream : Nat → Int) :
    ∀ (sample : List Character) (seen : List Int) (k : Nat)
      (items : List ShopItem),
      genItems sample rstream seen k = some items →
      (itemIds items).Nodup ∧ ∀ i ∈ itemIds items, i ∉ seen
  | [], seen, k, items, h => by
    simp only [genItems] at h
    injection h with h2
    subst h2
    simp [itemIds]
  | c :: rest, seen, k, items, h => by
    simp only [genItems] at h
    by_cases hs : seen.contains c.cid
    · rw [if_pos hs] at h
      exact genItems_ids rstream rest seen k items h
    · rw [if_neg hs] at h
      have hsmem : c.cid ∉ seen := by simpa using hs
      rcases hp : parse_rarity c.rarity with _ | rar
      · rw [hp] at h; simp at h
      · simp only [hp] at h
        by_cases hb : k + 1 ≥ MAX_SHOP_ITEMS
        · rw [if_pos hb] at h
          injection h with h2
          subst h2
          refine ⟨by simp [itemIds], ?_⟩
          intro i hi
          simp [itemIds] at hi
          subst hi
          exact hsmem
        · rw [if_neg hb] at h
          rcases hrec : genItems rest rstream (c.cid :: seen) (k + 1)
            with _ | tailItems
          · simp [hrec] at h
          · simp only [hrec] at h
            injection h with h2
            subst h2
            obtain ⟨hnd, hni⟩ :=
              genItems_ids rstream rest (c.cid :: seen) (k + 1) tailItems hrec
            constructor
            · simp only [itemIds, List.map_cons]
              refine List.nodup_cons.mpr ⟨?_, hnd⟩
              intro hmem
              exact (hni _ hmem) (List.mem_cons_self _ _)
            · intro i hi
              simp only [itemIds, List.map_cons, List.mem_cons] at hi
              rcases hi with hi | hi
              · subst hi
                exact hsmem
              · exact fun hmem => (hni i hi) (List.mem_cons_of_mem _ hmem)

theorem genItems_length (rstream : Nat → Int) :
    ∀ (sample : List Character) (seen : List Int) (k : Nat)
      (items : List ShopItem),
      genItems sample rstream seen k = some items → k < MAX_SHOP_ITEMS →
      items.length + k ≤ MAX_SHOP_ITEMS
  | [], seen, k, items, h, hk => by
    simp only [genItems] at h
    injection h with h2
    subst h2
    simpa using Nat.le_of_lt hk
  | c :: rest, seen, k, items, h, hk => by
    simp only [genItems] at h
    by_cases hs : seen.contains c.cid
    · rw [if_pos hs] at h
      exact genItems_length rstream rest seen k items h hk
    · rw [if_neg hs] at h
      rcases hp : parse_rarity c.rarity with _ | rar
      · rw [hp] at h; simp at h
      · simp only [hp] at h
        by_cases hb : k + 1 ≥ MAX_SHOP_ITEMS
        · rw [if_pos hb] at h
          injection h with h2
          subst h2
          simp only [List.length_singleton]
          omega
        · rw [if_neg hb] at h
          rcases hrec : genItems rest rstream (c.cid :: seen) (k + 1)
            with _ | tailItems
          · simp [hrec] at h
          · simp only [hrec] at h
            injection h with h2
            subst h2
            have := genItems_length rstream rest (c.cid :: seen) (k + 1)
              tailItems hrec (by omega)
            simp only [List.length_cons]
            omega

theorem genItems_prices (rstream : Nat → Int) :
    ∀ (sample : List Character) (seen : List Int) (k : Nat)
      (items : List ShopItem),
      genItems sample rstream seen k = some items →
      ∀ it ∈ items, ∃ j : Nat, it.price = max 100 (it.rarity * 1000 + rstream j)
  | [], seen, k, items, h => by
    simp only [genItems] at h
    injection h with h2
    subst h2
    simp
  | c :: rest, seen, k, items, h => by
    simp only [genItems] at h
    by_cases hs : seen.contains c.cid
    · rw [if_pos hs] at h
      exact genItems_prices rstream rest seen k items h
    · rw [if_neg hs] at h
      rcases hp : parse_rarity c.rarity with _ | rar
      · rw [hp] at h; simp at h
      · simp only [hp] at h
        by_cases hb : k + 1 ≥ MAX_SHOP_ITEMS
        · rw [if_pos hb] at h
          injection h with h2
          subst h2
          intro it hit
          simp at hit
          subst hit
          exact ⟨k, rfl⟩
        · rw [if_neg hb] at h
          rcases hrec : genItems rest rstream (c.cid :: seen) (k + 1)
            with _ | tailItems
          · simp [hrec] at h
          · simp only [hrec] at h
            injection h with h2
            subst h2
            intro it hit
            rcases List.mem_cons.mp hit with hit | hit
            · subst hit
              exact ⟨k, rfl⟩
            · exact genItems_prices rstream rest (c.cid :: seen) (k + 1)
                tailItems hrec it hit

/-- The three properties the claim asserts of a freshly generated listing. -/
theorem genItems_listing_spec (sample : List Character) (rstream : Nat → Int)
    (items : List ShopItem)
    (hr : ∀ n, -200 ≤ rstream n ∧ rstream n ≤ 200)
    (hgen : genItems sample rstream [] 0 = some items) :
    (itemIds items).Nodup ∧ items.length ≤ MAX_SHOP_ITEMS ∧
    ∀ it ∈ items,
      (∃ rr : Int, -200 ≤ rr ∧ rr ≤ 200 ∧
         it.price = max 100 (it.rarity * 1000 + rr)) ∧
      100 ≤ it.price := by
  refine ⟨(genItems_ids rstream sample [] 0 items hgen).1, ?_, ?_⟩
  · have := genItems_length rstream sample [] 0 items hgen
      (by simp [MAX_SHOP_ITEMS])
    omega
  · intro it hit
    obtain ⟨j, hj⟩ := genItems_prices rstream sample [] 0 items hgen it hit
    exact ⟨⟨rstream j, (hr j).1, (hr j).2, hj⟩, hj ▸ le_max_left _ _⟩

/-- C8: `get_shop_items` returns the cached listing exactly when the cache
entry is younger than the TTL (leaving the cache untouched); otherwise the
regenerated listing it returns has pairwise-distinct character ids, at most
`MAX_SHOP_ITEMS` entries, and every price equal to
`max(100, rarity * 1000 + r)` for some draw `r ∈ [−200, 200]` — hence every
price is at least 100.  (A generation aborted by a raising `parse_rarity`
returns the empty listing, which satisfies the three properties trivially.) -/
theorem get_shop_items_spec
    (sample : List Character) (rstream : Nat → Int) (now chat_id : Int)
    (cache : List (Int × ShopCacheEntry))
    (hr : ∀ n, -200 ≤ rstream n ∧ rstream n ≤ 200) :
    (∀ entry, assocLookup chat_id cache = some entry →
       now - entry.timestamp < SHOP_REFRESH_INTERVAL →
       get_shop_items sample rstream now chat_id cache = (entry.items, cache)) ∧
    ((∀ entry, assocLookup chat_id cache = some entry →
        ¬ now - entry.timestamp < SHOP_REFRESH_INTERVAL) →
      (itemIds (get_shop_items sample rstream now chat_id cache).1).Nodup ∧
      (get_shop_items sample rstream now chat_id cache).1.length ≤ MAX_SHOP_ITEMS ∧
      ∀ it ∈ (get_shop_items sample rstream now chat_id cache).1,
        (∃ rr : Int, -200 ≤ rr ∧ rr ≤ 200 ∧
           it.price = max 100 (it.rarity * 1000 + rr)) ∧
        100 ≤ it.price) := by
  constructor
  · intro entry hlk hfresh
    simp [get_shop_items, hlk, hfresh]
  · intro hstale
    rcases hlk : assocLookup chat_id cache with _ | entry
    · rcases hgen : genItems sample rstream [] 0 with _ | items
      · simp [get_shop_items, hlk, hgen, itemIds]
      · have hres : (get_shop_items sample rstream now chat_id cache).1 = items := by
          simp [get_shop_items, hlk, hgen]
        rw [hres]
        exact genItems_listing_spec sample rstream items hr hgen
    · have hstale' := hstale entry hlk
      rcases hgen : genItems sample rstream [] 0 with _ | items
      · simp [get_shop_items, hlk, hstale', hgen, itemIds]
      · have hres : (get_shop_items sample rstream now chat_id cache).1 = items := by
          simp [get_shop_items, hlk, hstale', hgen]
        rw [hres]
        exact genItems_listing_spec sample rstream items hr hgen

/-- Witness for C8: a two-row sample (with one duplicate id) against an empty
cache and against a stale cache entry. -/
theorem get_shop_items_spec_witness :
    (∀ entry, assocLookup 5 ([] : List (Int × ShopCacheEntry)) = some entry →
       (5000 : Int) - entry.timestamp < SHOP_REFRESH_INTERVAL →
       get_shop_items [⟨1, "a", "x", .vint 2, "u"⟩, ⟨1, "a2", "x", .vint 2, "u"⟩]
           (fun _ => 0) 5000 5 [] = (entry.items, [])) ∧
    ((∀ entry, assocLookup 5 ([] : List (Int × ShopCacheEntry)) = some entry →
        ¬ (5000 : Int) - entry.timestamp < SHOP_REFRESH_INTERVAL) →
      (itemIds (get_shop_items
          [⟨1, "a", "x", .vint 2, "u"⟩, ⟨1, "a2", "x", .vint 2, "u"⟩]
          (fun _ => 0) 5000 5 []).1).Nodup ∧
      (get_shop_items [⟨1, "a", "x", .vint 2, "u"⟩, ⟨1, "a2", "x", .vint 2, "u"⟩]
          (fun _ => 0) 5000 5 []).1.length ≤ MAX_SHOP_ITEMS ∧
      ∀ it ∈ (get_shop_items
          [⟨1, "a", "x", .vint 2, "u"⟩, ⟨1, "a2", "x", .vint 2, "u"⟩]
          (fun _ => 0) 5000 5 []).1,
        (∃ rr : Int, -200 ≤ rr ∧ rr ≤ 200 ∧
           it.price = max 100 (it.rarity * 1000 + rr)) ∧
        100 ≤ it.price) :=
  get_shop_items_spec
    [⟨1, "a", "x", .vint 2, "u"⟩, ⟨1, "a2", "x", .vint 2, "u"⟩]
    (fun _ => 0) 5000 5 [] (fun _ => ⟨by norm_num, by norm_num⟩)

end Senpai
